import Mathlib

/-!
Shallow embedding of the qbvisor / pyqb_client repository.

Each definition translates one function (or literal constant) of the Python
source; the file and line of the source are named in the doc comment.
Machine randomness (random.uniform) is modelled by an explicit jitter
argument, HTTP by explicit outcome-valued environments, and the asyncio
event loop by a small-step state machine over task phases.
-/

namespace QB

/-! ## Transport (src/pyqb_client/transport.py, QuickBaseTransport._make_request) -/

/-- Outcome of one underlying HTTP attempt: either the request itself raised
(network error) or a response with a status code and a decoded payload came
back. -/
inductive HttpOutcome (α : Type) where
  | netErr : HttpOutcome α
  | resp (status : Nat) (payload : α) : HttpOutcome α

/-- Failure reason recorded by the transport: a raised request error or an
HTTP error status (requests.Response.raise_for_status raises for
400 ≤ status < 600). -/
inductive TranspFail where
  | network : TranspFail
  | http (status : Nat) : TranspFail
deriving DecidableEq

/-- transport.py line 39: `max_attempts = 5`. -/
def transportMaxAttempts : Nat := 5

/-- transport.py line 40: `delay = 1.0`. -/
def transportBaseDelay : ℚ := 1

/-- transport.py line 41: `max_delay = 64.0`. -/
def transportMaxDelay : ℚ := 64

/-- transport.py line 53: lower bound of `random.uniform(0.5, 1.5)`. -/
def transportJitterLo : ℚ := 1/2

/-- transport.py line 53: upper bound of `random.uniform(0.5, 1.5)`. -/
def transportJitterHi : ℚ := 3/2

/-- transport.py line 52: `backoff = min(max_delay, delay * (2 ** attempt))`. -/
def transportBackoff (attempt : Nat) : ℚ :=
  min transportMaxDelay (transportBaseDelay * 2 ^ attempt)

/-- transport.py lines 45-48: `resp = method(...)`, `resp.raise_for_status()`,
`return resp.json()`, with any requests.RequestException (a raised request or
an HTTP error status) caught by the `except` clause. -/
def attemptOutcome {α : Type} : HttpOutcome α → Except TranspFail α
  | .netErr => .error .network
  | .resp st p => if 400 ≤ st ∧ st < 600 then .error (.http st) else .ok p

/-- transport.py lines 43-55, the retry loop, with `remaining` the number of
retries still allowed (`remaining = max_attempts - 1 - attempt`, so
`remaining = 0` iff `attempt == max_attempts - 1`, the branch that re-raises).
Returns the final result, the number of attempts issued, and the list of
sleeps performed (each `backoff * jitter`). -/
def makeRequestAux {α : Type} (responses : Nat → HttpOutcome α) (jitter : Nat → ℚ) :
    Nat → Nat → Except TranspFail α × Nat × List ℚ
  | attempt, 0 => (attemptOutcome (responses attempt), attempt + 1, [])
  | attempt, r + 1 =>
    match attemptOutcome (responses attempt) with
    | .ok p => (.ok p, attempt + 1, [])
    | .error _ =>
      let rest := makeRequestAux responses jitter (attempt + 1) r
      (rest.1, rest.2.1, transportBackoff attempt * jitter attempt :: rest.2.2)

/-- QuickBaseTransport._make_request (transport.py lines 31-55): run the
attempt loop from attempt 0 with `max_attempts - 1` retries allowed. -/
def makeRequest {α : Type} (responses : Nat → HttpOutcome α) (jitter : Nat → ℚ) :
    Except TranspFail α × Nat × List ℚ :=
  makeRequestAux responses jitter 0 (transportMaxAttempts - 1)

/-- The attempt loop inspects only attempts `attempt, ..., attempt + r`. -/
theorem makeRequestAux_congr {α : Type} (responses responses2 : Nat → HttpOutcome α)
    (jitter : Nat → ℚ) (r attempt : Nat)
    (h : ∀ i, attempt ≤ i → i ≤ attempt + r → responses i = responses2 i) :
    makeRequestAux responses jitter attempt r = makeRequestAux responses2 jitter attempt r := by
  induction r generalizing attempt with
  | zero =>
    have h0 := h attempt (Nat.le_refl _) (Nat.le_add_right _ _)
    simp [makeRequestAux, h0]
  | succ n ih =>
    have h0 := h attempt (Nat.le_refl _) (Nat.le_add_right _ _)
    have hrec := ih (attempt + 1) (fun i h1 h2 => h i (Nat.le_of_succ_le h1) (by omega))
    simp [makeRequestAux, h0, hrec]

/-- If every attempt fails, the loop returns the last attempt's error after
using every attempt and sleeping between consecutive attempts. -/
theorem makeRequestAux_allFail {α : Type} (responses : Nat → HttpOutcome α)
    (jitter : Nat → ℚ) (r attempt : Nat)
    (hall : ∀ i, ∃ k, attemptOutcome (responses i) = Except.error k) :
    (∃ k, (makeRequestAux responses jitter attempt r).1 = Except.error k) ∧
    (makeRequestAux responses jitter attempt r).2.1 = attempt + r + 1 ∧
    (makeRequestAux responses jitter attempt r).2.2 =
      (List.range r).map (fun i => transportBackoff (attempt + i) * jitter (attempt + i)) := by
  induction r generalizing attempt with
  | zero =>
    obtain ⟨k, hk⟩ := hall attempt
    exact ⟨⟨k, by simp [makeRequestAux, hk]⟩, by simp [makeRequestAux], by simp [makeRequestAux]⟩
  | succ n ih =>
    obtain ⟨k, hk⟩ := hall attempt
    obtain ⟨⟨k2, hk2⟩, hn, hw⟩ := ih (attempt + 1)
    refine ⟨⟨k2, ?_⟩, ?_, ?_⟩
    · simp [makeRequestAux, hk, hk2]
    · simp [makeRequestAux, hk, hn]; omega
    · simp [makeRequestAux, hk, hw, List.range_succ_eq_map]
      intro a ha
      have hx : attempt + 1 + a = attempt + (a + 1) := by omega
      rw [hx]

/-- Claim C4: the transport retry loop makes up to 5 attempts. If the first two
attempts fail and the third succeeds, the call returns the success payload
after exactly 3 attempts (having slept twice); if every attempt fails, the
call returns an error after exactly 5 attempts, and the outcome depends only
on attempts 0..4, so no 6th attempt occurs. -/
theorem transport_retry_budget {α : Type} (resp1 resp2 : Nat → HttpOutcome α)
    (jit1 jit2 : Nat → ℚ) (p : α)
    (h0 : ∃ k, attemptOutcome (resp1 0) = Except.error k)
    (h1 : ∃ k, attemptOutcome (resp1 1) = Except.error k)
    (h2 : attemptOutcome (resp1 2) = Except.ok p)
    (hall : ∀ i, ∃ k, attemptOutcome (resp2 i) = Except.error k) :
    makeRequest resp1 jit1 =
      (Except.ok p, 3, [transportBackoff 0 * jit1 0, transportBackoff 1 * jit1 1]) ∧
    (∃ k, (makeRequest resp2 jit2).1 = Except.error k) ∧
    (makeRequest resp2 jit2).2.1 = 5 ∧
    ∀ g : Nat → HttpOutcome α, (∀ i, i < 5 → g i = resp2 i) →
      makeRequest g jit2 = makeRequest resp2 jit2 := by
  obtain ⟨k0, hk0⟩ := h0
  obtain ⟨k1, hk1⟩ := h1
  obtain ⟨⟨ke, hke⟩, hn, _⟩ := makeRequestAux_allFail resp2 jit2 4 0 hall
  refine ⟨?_, ⟨ke, hke⟩, hn, ?_⟩
  · show makeRequestAux resp1 jit1 0 4 = _
    simp [makeRequestAux, hk0, hk1, h2]
  · intro g hg
    exact makeRequestAux_congr g resp2 jit2 4 0 (fun i _ h2 => hg i (by omega))

/-- Transport used by the C4 witness: the underlying request raises twice,
then returns HTTP 200 with payload 7. -/
def c4resp1 : Nat → HttpOutcome Nat := fun i => if i < 2 then .netErr else .resp 200 7

/-- Transport used by the C4 witness: every attempt returns HTTP 503. -/
def c4resp2 : Nat → HttpOutcome Nat := fun _ => .resp 503 0

/-- Jitter draw fixed to 1 for the C4 witness. -/
def c4jit : Nat → ℚ := fun _ => 1

theorem transport_retry_budget_witness :
    makeRequest c4resp1 c4jit =
      (Except.ok 7, 3, [transportBackoff 0 * c4jit 0, transportBackoff 1 * c4jit 1]) ∧
    (makeRequest c4resp2 c4jit).2.1 = 5 :=
  have h := transport_retry_budget c4resp1 c4resp2 c4jit c4jit 7
    ⟨.network, rfl⟩ ⟨.network, rfl⟩ rfl (fun _ => ⟨.http 503, rfl⟩)
  ⟨h.1, h.2.2.1⟩

/-- Transport whose every attempt returns HTTP 404 (a non-429 client
error), used to refute C5. -/
def c5resp : Nat → HttpOutcome Nat := fun _ => .resp 404 0

/-- Claim C5 counterexample: an always-404 transport is retried like any other
failure — 5 attempts are made and 4 backoff sleeps occur, contradicting
"fail immediately on the first attempt, without sleeping and without
consuming any retry budget". -/
theorem transport_4xx_not_fail_fast :
    (makeRequest c5resp c4jit).2.1 = 5 ∧
    (makeRequest c5resp c4jit).2.2.length = 4 ∧
    (makeRequest c5resp c4jit).2.1 ≠ 1 := by
  refine ⟨rfl, rfl, by decide⟩

/-- Claim C5 amended: Transport has no fail-fast path for client errors. Any HTTP
error status in [400, 600), 429 or not, is raised by raise_for_status as a
RequestException and retried under the same policy: with every attempt
returning such a status, the call makes all 5 attempts, sleeps the 4
computed backoff delays, and finally propagates the HTTP error. -/
theorem transport_4xx_retried {α : Type} (responses : Nat → HttpOutcome α)
    (jitter : Nat → ℚ) (st : Nat)
    (hst : 400 ≤ st) (hst2 : st < 600)
    (hresp : ∀ i, ∃ p, responses i = HttpOutcome.resp st p) :
    (makeRequest responses jitter).1 = Except.error (TranspFail.http st) ∧
    (makeRequest responses jitter).2.1 = 5 ∧
    (makeRequest responses jitter).2.2 =
      (List.range 4).map (fun a => transportBackoff a * jitter a) := by
  have hall : ∀ i, attemptOutcome (responses i) = Except.error (TranspFail.http st) := by
    intro i
    obtain ⟨p, hp⟩ := hresp i
    simp [hp, attemptOutcome, hst, hst2]
  have h04 := makeRequestAux_allFail responses jitter 4 0 (fun i => ⟨_, hall i⟩)
  refine ⟨?_, h04.2.1, by simpa using h04.2.2⟩
  obtain ⟨k, hk⟩ := h04.1
  -- the error returned is the final attempt's error, which is .http st
  show (makeRequestAux responses jitter 0 4).1 = _
  simp [makeRequestAux, hall 0, hall 1, hall 2, hall 3, hall 4]

theorem transport_4xx_retried_witness :
    (400 ≤ 404 ∧ 404 < 600) ∧
    (makeRequest c5resp c4jit).1 = Except.error (TranspFail.http 404) ∧
    (makeRequest c5resp c4jit).2.1 = 5 :=
  have h := transport_4xx_retried c5resp c4jit 404 (by decide) (by decide)
    (fun _ => ⟨0, rfl⟩)
  ⟨⟨by decide, by decide⟩, h.1, h.2.1⟩

/-! ## Chunked record fetch (src/qbvisor/client.py, QuickBaseClient) -/

/-- client.py line 870: `max_retries: int = 5`. -/
def chunkMaxRetries : Nat := 5

/-- client.py line 871: `base_delay: float = 0.5`. -/
def chunkBaseDelay : ℚ := 1/2

/-- client.py line 872: `max_delay: float = 10.0`. -/
def chunkMaxDelay : ℚ := 10

/-- client.py line 879: lower bound of `random.uniform(0.8, 1.2)`. -/
def chunkJitterLo : ℚ := 4/5

/-- client.py line 879: upper bound of `random.uniform(0.8, 1.2)`. -/
def chunkJitterHi : ℚ := 6/5

/-- client.py line 879: the computed exponential backoff
`min(max_delay, base_delay * 2 ** attempt)`. -/
def chunkBackoff (attempt : Nat) : ℚ :=
  min chunkMaxDelay (chunkBaseDelay * 2 ^ attempt)

/-- client.py line 877: the statuses `(429, 502, 503)` the chunk loop
retries on. -/
abbrev chunkRetryable (st : Nat) : Prop := st = 429 ∨ st = 502 ∨ st = 503

/-- One response of the records/query endpoint as seen by _fetch_chunk: a
status code, an optional Retry-After header, and the decoded rows. -/
structure ChunkResp (α : Type) where
  status : Nat
  retryAfter : Option ℚ
  rows : List α

/-- client.py lines 878-879: `wait = float(retry) if retry else
min(max_delay, base_delay * 2 ** attempt) * random.uniform(0.8, 1.2)` — a
Retry-After header is used verbatim, otherwise the jittered backoff. -/
def chunkWait (retryAfter : Option ℚ) (attempt : Nat) (u : ℚ) : ℚ :=
  match retryAfter with
  | some t => t
  | none => chunkBackoff attempt * u

/-- client.py lines 874-891, the `while True` retry loop of _fetch_chunk.
`fuel = max_retries - attempt`, so `fuel = 0` iff `attempt < max_retries`
fails and the loop falls through to `raise_for_status`. Returns the chunk
result (rows, or the HTTP error status raised by raise_for_status) and the
list of sleeps performed. -/
def fetchChunkAux {α : Type} (responses : Nat → ChunkResp α) (jitter : Nat → ℚ) :
    Nat → Nat → Except Nat (List α) × List ℚ
  | attempt, 0 =>
    let r := responses attempt
    if 400 ≤ r.status ∧ r.status < 600 then (.error r.status, []) else (.ok r.rows, [])
  | attempt, fuel + 1 =>
    let r := responses attempt
    if chunkRetryable r.status then
      let rest := fetchChunkAux responses jitter (attempt + 1) fuel
      (rest.1, chunkWait r.retryAfter attempt (jitter attempt) :: rest.2)
    else if 400 ≤ r.status ∧ r.status < 600 then (.error r.status, [])
    else (.ok r.rows, [])

/-- QuickBaseClient._fetch_chunk (client.py lines 863-891): run the retry
loop from attempt 0 with `max_retries` retries allowed. -/
def fetchChunk {α : Type} (responses : Nat → ChunkResp α) (jitter : Nat → ℚ) :
    Except Nat (List α) × List ℚ :=
  fetchChunkAux responses jitter 0 chunkMaxRetries

/-- If every response carries a retryable status and no Retry-After header,
the chunk loop sleeps the jittered exponential backoff before each of its
`fuel` retries and ends with the final attempt's error. -/
theorem fetchChunkAux_allRetryable {α : Type} (responses : Nat → ChunkResp α)
    (jitter : Nat → ℚ) (fuel attempt : Nat)
    (hst : ∀ i, chunkRetryable (responses i).status)
    (hra : ∀ i, (responses i).retryAfter = none) :
    (∃ e, (fetchChunkAux responses jitter attempt fuel).1 = Except.error e) ∧
    (fetchChunkAux responses jitter attempt fuel).2 =
      (List.range fuel).map (fun i => chunkBackoff (attempt + i) * jitter (attempt + i)) := by
  induction fuel generalizing attempt with
  | zero =>
    have h := hst attempt
    have h46 : 400 ≤ (responses attempt).status ∧ (responses attempt).status < 600 := by
      rcases h with h | h | h <;> omega
    exact ⟨⟨(responses attempt).status, by simp [fetchChunkAux, h46]⟩,
      by simp [fetchChunkAux, h46]⟩
  | succ n ih =>
    obtain ⟨⟨e, he⟩, hw⟩ := ih (attempt + 1)
    refine ⟨⟨e, ?_⟩, ?_⟩
    · simp [fetchChunkAux, hst attempt, he]
    · simp [fetchChunkAux, hst attempt, hw, chunkWait, hra attempt,
        List.range_succ_eq_map]
      intro a ha
      have hx : attempt + 1 + a = attempt + (a + 1) := by omega
      rw [hx]

/-- If every response carries a retryable status and the header
`Retry-After: t`, every sleep of the chunk loop is exactly `t` (the header
overrides the computed delay, unjittered). -/
theorem fetchChunkAux_retryAfter {α : Type} (responses : Nat → ChunkResp α)
    (jitter : Nat → ℚ) (t : ℚ) (fuel attempt : Nat)
    (hst : ∀ i, chunkRetryable (responses i).status)
    (hra : ∀ i, (responses i).retryAfter = some t) :
    (fetchChunkAux responses jitter attempt fuel).2 = List.replicate fuel t := by
  induction fuel generalizing attempt with
  | zero =>
    simp only [fetchChunkAux, List.replicate]
    split <;> rfl
  | succ n ih =>
    simp [fetchChunkAux, hst attempt, chunkWait, hra attempt, ih (attempt + 1),
      List.replicate_succ]

/-- Claim C6 counterexample: the chunk backoff is not the Transport backoff. At
attempt 0 with jitter draw 1 the chunk loop computes delay 1/2 while
Transport computes 1 (the base delays differ), the caps differ (10 vs 64),
and the jitter bands differ ((0.8,1.2) vs (0.5,1.5)). -/
theorem chunk_backoff_differs_from_transport :
    chunkWait Option.none 0 1 ≠ transportBackoff 0 * 1 ∧
    chunkBaseDelay ≠ transportBaseDelay ∧
    chunkMaxDelay ≠ transportMaxDelay ∧
    (chunkJitterLo, chunkJitterHi) ≠ (transportJitterLo, transportJitterHi) := by
  have hc : chunkWait Option.none 0 1 = 1/2 := by
    show chunkBackoff 0 * 1 = 1/2
    rw [chunkBackoff, chunkBaseDelay, chunkMaxDelay]
    norm_num
  have ht : transportBackoff 0 * 1 = 1 := by
    rw [transportBackoff, transportBaseDelay, transportMaxDelay]
    norm_num
  refine ⟨by rw [hc, ht]; norm_num, ?_, ?_, ?_⟩
  · rw [chunkBaseDelay, transportBaseDelay]; norm_num
  · rw [chunkMaxDelay, transportMaxDelay]; norm_num
  · rw [chunkJitterLo, chunkJitterHi, transportJitterLo, transportJitterHi]
    norm_num

/-- Claim C6 amended: each chunk fetch retries on 429/502/503 with the same
exponential shape min(cap, base·2^attempt)·jitter as Transport but its own
parameters — base 0.5s, cap 10s, jitter band uniform(0.8,1.2), against
Transport's base 1.0s, cap 64s, uniform(0.5,1.5) — and a Retry-After header
overrides the computed delay (used verbatim) in the chunk path only;
Transport never reads Retry-After. Stated over full runs: with every
response a retryable status and no header, the chunk sleeps are the five
jittered chunk backoffs; with header t they are five times t; an always-
failing Transport run sleeps the four jittered transport backoffs whatever
the response headers were. -/
theorem chunk_backoff_policy {α : Type} (respA respB : Nat → ChunkResp α)
    (jitter : Nat → ℚ) (t : ℚ)
    (hstA : ∀ i, chunkRetryable (respA i).status)
    (hraA : ∀ i, (respA i).retryAfter = none)
    (hstB : ∀ i, chunkRetryable (respB i).status)
    (hraB : ∀ i, (respB i).retryAfter = some t) :
    (fetchChunk respA jitter).2 =
      (List.range 5).map (fun a => chunkBackoff a * jitter a) ∧
    (fetchChunk respB jitter).2 = List.replicate 5 t ∧
    (∀ a, chunkBackoff a = min 10 ((1/2) * 2 ^ a) ∧ transportBackoff a = min 64 (2 ^ a)) ∧
    ∀ (responses2 : Nat → HttpOutcome α) (jit2 : Nat → ℚ),
      (∀ i, ∃ k, attemptOutcome (responses2 i) = Except.error k) →
      (makeRequest responses2 jit2).2.2 =
        (List.range 4).map (fun a => transportBackoff a * jit2 a) := by
  refine ⟨?_, fetchChunkAux_retryAfter respB jitter t 5 0 hstB hraB, ?_, ?_⟩
  · simpa using (fetchChunkAux_allRetryable respA jitter 5 0 hstA hraA).2
  · intro a
    constructor
    · simp [chunkBackoff, chunkMaxDelay, chunkBaseDelay]
    · simp [transportBackoff, transportMaxDelay, transportBaseDelay]
  · intro responses2 jit2 hall
    simpa using (makeRequestAux_allFail responses2 jit2 4 0 hall).2.2

/-- Always-503 chunk responses with no Retry-After, for witnesses. -/
def c6respA : Nat → ChunkResp Nat := fun _ => ⟨503, none, []⟩

/-- Always-429 chunk responses with header Retry-After: 7, for witnesses. -/
def c6respB : Nat → ChunkResp Nat := fun _ => ⟨429, some 7, []⟩

theorem chunk_backoff_policy_witness :
    (fetchChunk c6respA c4jit).2 =
      (List.range 5).map (fun a => chunkBackoff a * c4jit a) ∧
    (fetchChunk c6respB c4jit).2 = List.replicate 5 7 :=
  have h := chunk_backoff_policy c6respA c6respB c4jit 7
    (fun _ => Or.inr (Or.inr rfl)) (fun _ => rfl)
    (fun _ => Or.inl rfl) (fun _ => rfl)
  ⟨h.1, h.2.1⟩

/-- Python `range(0, stop, step)` for a positive step: the multiples of
`step` below `stop`, of which there are `⌈stop/step⌉ = (stop + step - 1) / step`. -/
def pyRangeStep (stop step : Nat) : List Nat :=
  (List.range ((stop + step - 1) / step)).map (fun i => i * step)

/-- client.py line 957 in download_records_to_csv:
`batches = [(o, min(chunk_size, 1000)) for o in range(0, total, chunk_size)]`.
Every chunk, the last included, requests `top = min(chunk_size, 1000)`. -/
def recordBatches (total chunkSize : Nat) : List (Nat × Nat) :=
  (pyRangeStep total chunkSize).map (fun o => (o, min chunkSize 1000))

/-- Claim C1 counterexample: with total=2500 and chunk_size=1000 the three chunk
requests are (0,1000), (1000,1000), (2000,1000) — the last requested top is
1000, not the remainder 500 claimed by the spec. -/
theorem record_batches_counterexample :
    recordBatches 2500 1000 = [(0, 1000), (1000, 1000), (2000, 1000)] ∧
    recordBatches 2500 1000 ≠ [(0, 1000), (1000, 1000), (2000, 500)] := by
  refine ⟨by decide, by decide⟩

/-- Claim C1 amended: for chunk_size > 0 the engine creates ⌈total/chunk_size⌉
chunk requests, the i-th at offset i·chunk_size, and every one of them —
the last included — requests top = min(chunk_size, 1000) (the clamp to the
API per-request maximum); the last chunk is not shortened to the remainder.
When chunk_size ≤ 1000 the requested windows still jointly cover [0, total)
because the final window overshoots. -/
theorem record_batches_amended (total cs : Nat) (h : 0 < cs) :
    (recordBatches total cs).length = (total + cs - 1) / cs ∧
    (∀ i (hi : i < (recordBatches total cs).length),
      (recordBatches total cs).get ⟨i, hi⟩ = (i * cs, min cs 1000)) ∧
    (cs ≤ 1000 → ∀ k, k < total →
      ∃ p, p ∈ recordBatches total cs ∧ p.1 ≤ k ∧ k < p.1 + p.2) := by
  refine ⟨by simp [recordBatches, pyRangeStep], ?_, ?_⟩
  · intro i hi
    simp [recordBatches, pyRangeStep]
  · intro hcs k hk
    have hmod := Nat.div_add_mod k cs
    have hmodlt : k % cs < cs := Nat.mod_lt _ h
    have hco : k / cs * cs = cs * (k / cs) := Nat.mul_comm _ _
    refine ⟨(k / cs * cs, min cs 1000), ?_, ?_, ?_⟩
    · simp only [recordBatches, pyRangeStep, List.mem_map, List.mem_range]
      refine ⟨k / cs * cs, ⟨k / cs, ?_, rfl⟩, rfl⟩
      -- k / cs < ⌈total/cs⌉ because k < total
      have h1 : total + cs - 1 = (total - 1) + cs := by omega
      have h2 : (total + cs - 1) / cs = (total - 1) / cs + 1 := by
        rw [h1]; exact Nat.add_div_right _ h
      have h3 : k / cs ≤ (total - 1) / cs := Nat.div_le_div_right (by omega)
      omega
    · exact Nat.div_mul_le_self k cs
    · have hm : min cs 1000 = cs := Nat.min_eq_left hcs
      rw [hm]
      omega

theorem record_batches_amended_witness :
    0 < 1000 ∧ (recordBatches 2500 1000).length = 3 :=
  ⟨by decide, by simpa using (record_batches_amended 2500 1000 (by decide)).1⟩

/-- One chunk task of _gather_chunks (client.py lines 909-911): run
_fetch_chunk for the batch `b` against that batch's response environment,
keeping only its result. -/
def runChunk {α : Type} (world : Nat × Nat → Nat → ChunkResp α)
    (jitter : Nat × Nat → Nat → ℚ) (b : Nat × Nat) : Except Nat (List α) :=
  (fetchChunk (world b) (jitter b)).1

/-- Await a list of fallible tasks in order; the first raised error aborts
the whole collection, as `asyncio.gather` with no return_exceptions does. -/
def awaitAll {α β : Type} (f : α → Except Nat β) : List α → Except Nat (List β)
  | [] => .ok []
  | a :: l =>
    match f a with
    | .error e => .error e
    | .ok b =>
      match awaitAll f l with
      | .error e => .error e
      | .ok bs => .ok (b :: bs)

/-- QuickBaseClient._gather_chunks (client.py lines 893-914):
`asyncio.gather(*tasks)` with no return_exceptions — if any task raises, the
gather raises and yields no list; otherwise it yields the list of all chunk
row lists. -/
def gatherChunks {α : Type} (world : Nat × Nat → Nat → ChunkResp α)
    (jitter : Nat × Nat → Nat → ℚ) (batches : List (Nat × Nat)) :
    Except Nat (List (List α)) :=
  awaitAll (fun b => runChunk world jitter b) batches

/-- download_records_to_csv (client.py lines 963-968): await the gather and
flatten; an exception from the gather propagates to the caller uncaught. -/
def downloadRecordsRows {α : Type} (world : Nat × Nat → Nat → ChunkResp α)
    (jitter : Nat × Nat → Nat → ℚ) (batches : List (Nat × Nat)) :
    Except Nat (List α) :=
  (gatherChunks world jitter batches).map List.flatten

/-- Awaiting a collection of tasks fails whenever any member task fails. -/
theorem awaitAll_error_of_mem {α β : Type} (f : α → Except Nat β) (l : List α) (a : α)
    (ha : a ∈ l) (hf : ∃ e, f a = Except.error e) :
    ∃ e, awaitAll f l = Except.error e := by
  induction l with
  | nil => cases ha
  | cons hd tl ih =>
    rcases List.mem_cons.mp ha with rfl | hmem
    · obtain ⟨e, he⟩ := hf
      exact ⟨e, by simp [awaitAll, he]⟩
    · cases hhd : f hd with
      | error e => exact ⟨e, by simp [awaitAll, hhd]⟩
      | ok b =>
        obtain ⟨e, he⟩ := ih hmem
        exact ⟨e, by simp [awaitAll, hhd, he]⟩

/-- Claim C3: if any one chunk's fetch fails (for example by exhausting its
retries), the gather and the whole download fail — the error propagates and
no row list, partial or otherwise, is returned. -/
theorem chunk_failure_aborts_download {α : Type} (world : Nat × Nat → Nat → ChunkResp α)
    (jitter : Nat × Nat → Nat → ℚ) (batches : List (Nat × Nat)) (b : Nat × Nat)
    (hb : b ∈ batches) (hfail : ∃ e, runChunk world jitter b = Except.error e) :
    (∃ e, gatherChunks world jitter batches = Except.error e) ∧
    (∃ e, downloadRecordsRows world jitter batches = Except.error e) ∧
    ∀ rows, downloadRecordsRows world jitter batches ≠ Except.ok rows := by
  obtain ⟨e, he⟩ := awaitAll_error_of_mem (fun b => runChunk world jitter b) batches b hb hfail
  refine ⟨⟨e, he⟩, ⟨e, ?_⟩, ?_⟩
  · simp [downloadRecordsRows, gatherChunks] at he ⊢
    rw [he]
    rfl
  · intro rows hrows
    simp [downloadRecordsRows, gatherChunks] at he hrows
    rw [he] at hrows
    simp [Except.map] at hrows

/-- Response environment for the C3 witness: every chunk request returns
HTTP 503 with no Retry-After, so every chunk exhausts its retries. -/
def c3world : Nat × Nat → Nat → ChunkResp Nat := fun _ _ => ⟨503, none, []⟩

/-- Jitter environment for the C3 witness. -/
def c3jit : Nat × Nat → Nat → ℚ := fun _ _ => 1

theorem chunk_failure_aborts_download_witness :
    ∃ e, downloadRecordsRows c3world c3jit (recordBatches 2500 1000) = Except.error e :=
  (chunk_failure_aborts_download c3world c3jit (recordBatches 2500 1000) (0, 1000)
    (by decide) ⟨503, rfl⟩).2.1

/-! ## Semaphore-bounded task pool (client.py lines 898-914 `_gather_chunks`
and lines 1031-1051 `_async_download_attachments`)

Both engines create `sem = asyncio.Semaphore(max_concurrency)` and run one
task per chunk/job whose network request sits inside `async with sem:`.
The event loop interleaves tasks cooperatively; the state machine below has
one transition per suspension point: a task starts, acquires the semaphore
(only when a permit is available), and releases it when its request
finishes. A task may also finish without the semaphore (the skip-if-exists
early return of `_async_download_attachment`, client.py lines 1010-1012).
"In flight" is exactly "inside the `async with sem` body". -/

/-- The phase of one chunk/download task. -/
inductive TaskPhase where
  | notStarted : TaskPhase
  | waiting : TaskPhase
  | inFlight : TaskPhase
  | done : TaskPhase
deriving DecidableEq

/-- The event loop state: remaining semaphore permits and each task's phase. -/
structure PoolState where
  avail : Nat
  tasks : List TaskPhase
deriving DecidableEq

/-- The state before any task has run: `asyncio.Semaphore(max_concurrency)`
holds all permits and the `n` tasks are unstarted. -/
def initPool (n maxConcurrency : Nat) : PoolState :=
  ⟨maxConcurrency, List.replicate n .notStarted⟩

/-- One scheduling step of the event loop. Acquiring the semaphore requires
a free permit; releasing returns it. -/
inductive PoolStep : PoolState → PoolState → Prop where
  | start (s : PoolState) (i : Nat) (h : s.tasks.get? i = some .notStarted) :
      PoolStep s ⟨s.avail, s.tasks.set i .waiting⟩
  | skip (s : PoolState) (i : Nat) (h : s.tasks.get? i = some .notStarted) :
      PoolStep s ⟨s.avail, s.tasks.set i .done⟩
  | acquire (s : PoolState) (i : Nat) (h : s.tasks.get? i = some .waiting)
      (ha : 0 < s.avail) :
      PoolStep s ⟨s.avail - 1, s.tasks.set i .inFlight⟩
  | release (s : PoolState) (i : Nat) (h : s.tasks.get? i = some .inFlight) :
      PoolStep s ⟨s.avail + 1, s.tasks.set i .done⟩

/-- The states the event loop can reach from a given initial state. -/
inductive PoolReachable (init : PoolState) : PoolState → Prop where
  | refl : PoolReachable init init
  | step {s s2 : PoolState} : PoolReachable init s → PoolStep s s2 → PoolReachable init s2

/-- Number of requests currently in flight. -/
def inFlightCount (s : PoolState) : Nat :=
  s.tasks.countP (fun p => p == .inFlight)

/-- Setting one known element changes a countP by swapping that element's
contribution. -/
theorem countP_set_swap {α : Type} (l : List α) (i : Nat) (a b : α) (p : α → Bool)
    (h : l.get? i = some b) :
    (l.set i a).countP p + (if p b then 1 else 0) =
      l.countP p + (if p a then 1 else 0) := by
  induction l generalizing i with
  | nil => simp at h
  | cons hd tl ih =>
    cases i with
    | zero =>
      simp only [List.get?] at h
      injection h with h
      subst h
      simp [List.countP_cons]
      omega
    | succ n =>
      simp only [List.get?] at h
      have := ih n h
      simp [List.countP_cons]
      omega

/-- All-zero in-flight count of the initial pool. -/
theorem inFlightCount_initPool (n N : Nat) : inFlightCount (initPool n N) = 0 := by
  simp only [inFlightCount, initPool]
  rw [List.countP_eq_zero]
  intro a ha
  rw [List.eq_of_mem_replicate ha]
  decide

/-- Semaphore invariant: free permits plus in-flight requests always equal
the semaphore's capacity. -/
theorem pool_invariant (n N : Nat) (s : PoolState)
    (h : PoolReachable (initPool n N) s) : s.avail + inFlightCount s = N := by
  induction h with
  | refl =>
    have h0 := inFlightCount_initPool n N
    simp [initPool] at h0 ⊢
    omega
  | step hr hs ih =>
    cases hs with
    | start i h =>
      have hc := countP_set_swap _ i TaskPhase.waiting TaskPhase.notStarted
        (fun p => p == TaskPhase.inFlight) h
      simp [inFlightCount] at hc ih ⊢
      omega
    | skip i h =>
      have hc := countP_set_swap _ i TaskPhase.done TaskPhase.notStarted
        (fun p => p == TaskPhase.inFlight) h
      simp [inFlightCount] at hc ih ⊢
      omega
    | acquire i h ha =>
      have hc := countP_set_swap _ i TaskPhase.inFlight TaskPhase.waiting
        (fun p => p == TaskPhase.inFlight) h
      simp [inFlightCount] at hc ih ⊢
      omega
    | release i h =>
      have hc := countP_set_swap _ i TaskPhase.done TaskPhase.inFlight
        (fun p => p == TaskPhase.inFlight) h
      simp [inFlightCount] at hc ih ⊢
      omega

/-- Claim C2: in every state the event loop can reach while running a batch of
`n` chunk fetches or attachment downloads under
`asyncio.Semaphore(maxConcurrency)`, at most `maxConcurrency` requests are
in flight simultaneously, regardless of `n`. -/
theorem pool_inflight_bounded (n maxConcurrency : Nat) (s : PoolState)
    (h : PoolReachable (initPool n maxConcurrency) s) :
    inFlightCount s ≤ maxConcurrency := by
  have := pool_invariant n maxConcurrency s h
  omega

/-- A reachable state of a 10-task, capacity-2 pool in which two tasks hold
the semaphore: tasks 0 and 1 started and acquired. -/
def c2state : PoolState :=
  ⟨0, List.set (List.set (List.set (List.set (List.replicate 10 TaskPhase.notStarted)
    0 .waiting) 1 .waiting) 0 .inFlight) 1 .inFlight⟩

theorem pool_inflight_bounded_witness : inFlightCount c2state ≤ 2 :=
  pool_inflight_bounded 10 2 c2state
    (PoolReachable.step
      (PoolReachable.step
        (PoolReachable.step
          (PoolReachable.step PoolReachable.refl
            (PoolStep.start (initPool 10 2) 0 (by decide)))
          (PoolStep.start _ 1 (by decide)))
        (PoolStep.acquire _ 0 (by decide) (by decide)))
      (PoolStep.acquire _ 1 (by decide) (by decide)))

/-! ## QueryHelper (src/pyqb_client/query_helper.py) and
MetadataCache field lookup (src/pyqb_client/metadata.py) -/

/-- One cached field record, the `{'id': ..., 'type': ...}` sub-dict built
by QuickBaseMetaCache.get_fields (metadata.py line 117). -/
structure FieldEntry where
  id : Nat
  ftype : String
deriving DecidableEq

/-- Python `str.lower()`: lowercase every character (character-wise map, as
for the ASCII app/table/field names this client handles). -/
def strLower (s : String) : String := ⟨s.data.map Char.toLower⟩

/-- query_helper.py lines 58-62, QueryHelper.and_:
`return "AND".join(expressions)`. -/
def and_ (expressions : List String) : String :=
  String.intercalate "AND" expressions

/-- query_helper.py lines 64-68, QueryHelper.or_:
`return "OR".join(expressions)`. -/
def or_ (expressions : List String) : String :=
  String.intercalate "OR" expressions

/-- query_helper.py lines 70-74, QueryHelper.not_:
`return "NOT".join(expressions)` — a joiner, not a prefix. -/
def not_ (expressions : List String) : String :=
  String.intercalate "NOT" expressions

/-- Claim C7: the AND and OR combinators join with the bare tokens, but the NOT
combinator does not emit "NOT " before its sub-expression: with a single
argument it returns the expression unchanged, and with two it joins them
with the bare token "NOT". The repo's own test
(tests/test_query_helper.py line 26, `q.not_(a) == "NOT " + a`) expects the
trailing-space prefix the spec describes, so the code contradicts it. -/
theorem query_not_join_bug :
    and_ ["p", "q"] = "pANDq" ∧
    or_ ["p", "q"] = "pORq" ∧
    not_ ["p"] = "p" ∧
    "p" ≠ "NOT " ++ "p" ∧
    not_ ["p", "q"] = "pNOTq" := by
  refine ⟨rfl, rfl, rfl, by decide, rfl⟩

/-- QueryHelper.fid (query_helper.py lines 28-34): exact, case-sensitive
dict-key lookup of the label; raises ValueError when absent; returns
`str(field_id)`. The field map is the label-keyed map get_field_map
returned, in insertion order. -/
def fid (fieldMap : List (String × FieldEntry)) (tableName label : String) :
    Except String String :=
  match fieldMap.find? (fun p => p.1 == label) with
  | none => .error ("Field label " ++ label ++ " not found in table " ++ tableName ++ ".")
  | some p => .ok (toString p.2.id)

/-- QuickBaseMetaCache.get_field_id lookup (metadata.py lines 131-137): the
comprehension `{lbl.lower(): lbl for lbl in fmap}` keeps, for each
lowercased label, the last label that maps to it; the given label is then
looked up by its lowercase form, and the matching entry's id returned. -/
def get_field_id (fieldMap : List (String × FieldEntry)) (label : String) :
    Except String Nat :=
  match fieldMap.reverse.find? (fun p => strLower p.1 == strLower label) with
  | none => .error ("Field " ++ label ++ " not found.")
  | some p => .ok p.2.id

/-- Claim C10: QueryHelper field-label resolution is case-sensitive while
MetadataCache.get_field_id is not: a label that exactly matches no key of
the field map makes fid raise, even when some key matches it up to letter
case — in which case get_field_id resolves it. -/
theorem fid_case_sensitive (fieldMap : List (String × FieldEntry))
    (tableName label : String)
    (hexact : ∀ p ∈ fieldMap, p.1 ≠ label)
    (hci : ∃ p ∈ fieldMap, strLower p.1 = strLower label) :
    (∃ msg, fid fieldMap tableName label = Except.error msg) ∧
    (∃ i, get_field_id fieldMap label = Except.ok i) := by
  constructor
  · have hnone : fieldMap.find? (fun p => p.1 == label) = none := by
      rw [List.find?_eq_none]
      intro p hp
      simpa using hexact p hp
    exact ⟨_, by rw [fid, hnone]⟩
  · obtain ⟨p, hp, hlow⟩ := hci
    have hsome : (fieldMap.reverse.find? (fun p => strLower p.1 == strLower label)).isSome := by
      rw [List.find?_isSome]
      exact ⟨p, List.mem_reverse.mpr hp, by simpa using hlow⟩
    rw [get_field_id]
    obtain ⟨q, hq⟩ := Option.isSome_iff_exists.mp hsome
    rw [hq]
    exact ⟨q.2.id, rfl⟩

/-- Field map with a single field labelled "Name", for the C10 witness. -/
def c10map : List (String × FieldEntry) := [("Name", ⟨6, "text"⟩)]

theorem fid_case_sensitive_witness :
    (∃ msg, fid c10map "T" "name" = Except.error msg) ∧
    (∃ i, get_field_id c10map "name" = Except.ok i) :=
  fid_case_sensitive c10map "T" "name" (by decide) ⟨("Name", ⟨6, "text"⟩), by decide, by decide⟩

/-! ## Metadata cache population (src/pyqb_client/metadata.py,
QuickBaseMetaCache.get_table / get_fields / get_field_map)

The app-name normalisation (normalize_app) only chooses which per-app
sub-cache is used and never issues remote calls, so the model fixes one app
and its remote endpoints. Python's in-place mutation of the cached
table-info dict (metadata.py line 120) is rendered as a keyed update of the
cache. -/

/-- The remote endpoints of one app: GET /tables (id, name pairs),
GET /tables/\x7btableId\x7d (nextRecordId), and GET /fields?tableId=
(id, label, fieldType triples). -/
structure RemoteApp where
  tables : List (String × String)
  nextRecordId : String → Nat
  fieldsOf : String → List (Nat × String × String)

/-- One cached table record `{'id': ..., 'size': ..., 'fields': ...}`
(metadata.py lines 84-88). -/
structure TableInfo where
  id : String
  size : Nat
  fields : List (String × FieldEntry)
deriving DecidableEq

/-- The per-app `cache[name]['tables']` mapping, keyed by friendly table
name. -/
def MetaCache : Type := List (String × TableInfo)

/-- How many remote calls a metadata operation issued, by endpoint. -/
structure RemoteCalls where
  tableList : Nat
  tableDetail : Nat
  fieldList : Nat
deriving DecidableEq

/-- Componentwise sum of call counters. -/
def RemoteCalls.add (a b : RemoteCalls) : RemoteCalls :=
  ⟨a.tableList + b.tableList, a.tableDetail + b.tableDetail, a.fieldList + b.fieldList⟩

/-- metadata.py lines 70-73: match the identifier against the listed table
ids first, then case-insensitively against the listed names. -/
def findTableEntry (tables : List (String × String)) (table : String) :
    Option (String × String) :=
  if (tables.map Prod.fst).contains table then
    tables.find? (fun t => t.1 == table)
  else
    tables.find? (fun t => strLower t.2 == strLower table)

/-- QuickBaseMetaCache.get_table (metadata.py lines 59-89): list the tables
remotely (every call), resolve the identifier, and fetch the table detail
(nextRecordId) only when the table is not cached yet, caching
`{id, size = nextRecordId - 1, fields = {}}`. Returns the updated cache,
the resolved friendly name, the table info, and the remote calls made. -/
def getTable (remote : RemoteApp) (cache : MetaCache) (table : String) :
    Except String (MetaCache × String × TableInfo × RemoteCalls) :=
  match findTableEntry remote.tables table with
  | none => .error ("Table " ++ table ++ " not found.")
  | some (tid, tname) =>
    match cache.lookup tname with
    | some info => .ok (cache, tname, info, ⟨1, 0, 0⟩)
    | none =>
      let size := remote.nextRecordId tid - 1
      let info : TableInfo := ⟨tid, size, []⟩
      .ok ((tname, info) :: cache, tname, info, ⟨1, 1, 0⟩)

/-- The in-place `table_info['fields'] = fmap` of metadata.py line 120:
update the named table's cached fields. -/
def setFields (cache : MetaCache) (tname : String) (fm : List (String × FieldEntry)) :
    MetaCache :=
  cache.map (fun p => if p.1 == tname then (p.1, ⟨p.2.id, p.2.size, fm⟩) else p)

/-- QuickBaseMetaCache.get_fields (metadata.py lines 95-121): ensure the
table is cached (get_table again — another remote table listing), then list
the fields remotely, build the label-keyed map, and store it in the cached
table info. -/
def getFields (remote : RemoteApp) (cache : MetaCache) (table : String) :
    Except String (MetaCache × List (String × FieldEntry) × RemoteCalls) :=
  match getTable remote cache table with
  | .error e => .error e
  | .ok (c1, tname, info, k1) =>
    let fm := (remote.fieldsOf info.id).map (fun f => (f.2.1, FieldEntry.mk f.1 f.2.2))
    .ok (setFields c1 tname fm, fm, k1.add ⟨0, 0, 1⟩)

/-- QuickBaseMetaCache.get_field_map (metadata.py lines 123-129): get_table,
then fetch the fields only if the cached field map is empty; otherwise
return the cached map with no field-listing call. -/
def getFieldMap (remote : RemoteApp) (cache : MetaCache) (table : String) :
    Except String (MetaCache × List (String × FieldEntry) × RemoteCalls) :=
  match getTable remote cache table with
  | .error e => .error e
  | .ok (c1, _, info, k1) =>
    if info.fields.isEmpty then
      match getFields remote c1 table with
      | .error e => .error e
      | .ok (c2, fm, k2) => .ok (c2, fm, k1.add k2)
    else
      .ok (c1, info.fields, k1)

/-- Number of field-listing calls reported by a metadata operation (zero
for a failed operation). -/
def fieldListCalls (r : Except String (MetaCache × List (String × FieldEntry) × RemoteCalls)) :
    Nat :=
  match r with
  | .ok (_, _, k) => k.fieldList
  | .error _ => 0

/-- Remote app used to refute C8: one table "T" whose field listing is
empty. -/
def c8remote : RemoteApp := ⟨[("t1", "T")], fun _ => 1, fun _ => []⟩

/-- The cache left by the first get_field_map call on the C8 remote. -/
def c8cache1 : MetaCache :=
  match getFieldMap c8remote [] "T" with
  | .ok (c, _, _) => c
  | .error _ => []

/-- Claim C8 counterexample: for a table whose remote field listing is empty, the
stored field map stays empty, so the second get_field_map call issues
another field-listing call instead of zero. -/
theorem get_field_map_refetches_empty :
    fieldListCalls (getFieldMap c8remote [] "T") = 1 ∧
    fieldListCalls (getFieldMap c8remote c8cache1 "T") = 1 ∧
    fieldListCalls (getFieldMap c8remote c8cache1 "T") ≠ 0 := by
  refine ⟨rfl, rfl, by decide⟩

/-- Claim C8 amended: for a table whose remote field listing is non-empty, a
first get_field_map call on a fresh cache issues exactly one field-listing
call and populates the cached map, and a second call issues zero
field-listing calls (only the table re-listing) and returns the same map
from the unchanged cache. -/
theorem get_field_map_caches (remote : RemoteApp) (table tid tname : String)
    (hfind : findTableEntry remote.tables table = some (tid, tname))
    (hne : remote.fieldsOf tid ≠ []) :
    ∃ c fm k1,
      getFieldMap remote [] table = Except.ok (c, fm, k1) ∧
      k1.fieldList = 1 ∧
      fm = (remote.fieldsOf tid).map (fun f => (f.2.1, FieldEntry.mk f.1 f.2.2)) ∧
      getFieldMap remote c table = Except.ok (c, fm, ⟨1, 0, 0⟩) := by
  obtain ⟨f0, fs, hfs⟩ := List.exists_cons_of_ne_nil hne
  have hlookup : ([] : MetaCache).lookup tname = none := rfl
  -- the first call: get_table caches the table, fields are empty, get_fields runs
  set fm := (remote.fieldsOf tid).map (fun f => (f.2.1, FieldEntry.mk f.1 f.2.2)) with hfm
  have hfmne : fm.isEmpty = false := by
    rw [hfm, hfs]
    rfl
  refine ⟨[(tname, ⟨tid, remote.nextRecordId tid - 1, fm⟩)], fm, ⟨2, 1, 1⟩, ?_, rfl, rfl, ?_⟩
  · rw [getFieldMap, getTable, hfind]
    simp only [List.lookup]
    rw [getFields, getTable, hfind]
    simp [setFields, RemoteCalls.add]
  · rw [getFieldMap, getTable, hfind]
    simp only [List.lookup, beq_self_eq_true, if_pos]
    rw [if_neg]
    simp [hfmne]

/-- Remote app for the C8 witness: one table with one field. -/
def c8wremote : RemoteApp := ⟨[("t1", "T")], fun _ => 5, fun _ => [(6, "Name", "text")]⟩

theorem get_field_map_caches_witness :
    ∃ c fm k1,
      getFieldMap c8wremote [] "T" = Except.ok (c, fm, k1) ∧
      k1.fieldList = 1 ∧
      fm = (c8wremote.fieldsOf "t1").map (fun f => (f.2.1, FieldEntry.mk f.1 f.2.2)) ∧
      getFieldMap c8wremote c "T" = Except.ok (c, fm, ⟨1, 0, 0⟩) :=
  get_field_map_caches c8wremote "T" "t1" "T" rfl (by decide)

/-! ## Attachment downloader (client.py, _async_download_attachment /
_async_download_attachments) -/

/-- One download job dict `{record_id, file_name, url}` consumed by
_async_download_attachments (client.py lines 1040-1043). -/
structure DlJob where
  recordId : String
  fileName : String
  url : String
deriving DecidableEq

/-- Terminal state of one download task: skipped because the file existed,
downloaded, or failed with the error caught and logged. -/
inductive DlStatus where
  | skipped : DlStatus
  | downloaded : DlStatus
  | failedLogged : DlStatus
deriving DecidableEq

/-- client.py line 1044: `save_path = Path(target_dir) / f"{rid}_{filename}"`. -/
def savePath (targetDir : String) (j : DlJob) : String :=
  targetDir ++ "/" ++ j.recordId ++ "_" ++ j.fileName

/-- The body of _async_download_attachment with no exception handler: the
skip-if-exists early return (client.py lines 1010-1012), then the GET and
file write, whose failure raises. -/
def rawDownloadAttachment (fileExistsAtPath : Bool) (net : Except String Unit) :
    Except String DlStatus :=
  if fileExistsAtPath then .ok .skipped
  else
    match net with
    | .ok _ => .ok .downloaded
    | .error e => .error e

/-- QuickBaseClient._async_download_attachment (client.py lines 1003-1023):
the try/except around the download catches any failure, logs it, and
returns normally. -/
def attachmentTask (fileExistsAtPath : Bool) (net : Except String Unit) :
    Except String DlStatus :=
  match rawDownloadAttachment fileExistsAtPath net with
  | .ok s => .ok s
  | .error _ => .ok .failedLogged

/-- The terminal status attachmentTask reports for one job. -/
def attachmentStatus (fileExistsAtPath : Bool) (net : Except String Unit) : DlStatus :=
  if fileExistsAtPath then .skipped
  else
    match net with
    | .ok _ => .downloaded
    | .error _ => .failedLogged

/-- attachmentTask never raises: the except clause converts every failure
into a logged normal return. -/
theorem attachmentTask_total (fileExistsAtPath : Bool) (net : Except String Unit) :
    attachmentTask fileExistsAtPath net =
      Except.ok (attachmentStatus fileExistsAtPath net) := by
  cases fileExistsAtPath <;> cases net <;>
    simp [attachmentTask, rawDownloadAttachment, attachmentStatus]

/-- QuickBaseClient._async_download_attachments (client.py lines 1025-1052):
one task per job (its existence check keyed on the save path, its network
fetch on the url), gathered like the chunk tasks; the output list of
`{record_id, file_name, saved_path}` dicts is built for every job before the
gather and returned after it. -/
def downloadAttachments (jobs : List DlJob) (targetDir : String)
    (fileExistsAt : String → Bool) (net : String → Except String Unit) :
    Except String (List (String × String × String) × List DlStatus) :=
  let output := jobs.map (fun j => (j.recordId, j.fileName, savePath targetDir j))
  match jobs.mapM (fun j => attachmentTask (fileExistsAt (savePath targetDir j)) (net j.url)) with
  | .error e => .error e
  | .ok sts => .ok (output, sts)

/-- The gather underlying downloadAttachments always succeeds, with one
status per job. -/
theorem downloadAttachments_ok (jobs : List DlJob) (targetDir : String)
    (fileExistsAt : String → Bool) (net : String → Except String Unit) :
    downloadAttachments jobs targetDir fileExistsAt net =
      Except.ok (jobs.map (fun j => (j.recordId, j.fileName, savePath targetDir j)),
        jobs.map (fun j => attachmentStatus (fileExistsAt (savePath targetDir j)) (net j.url))) := by
  have hm : ∀ l : List DlJob,
      l.mapM (fun j => attachmentTask (fileExistsAt (savePath targetDir j)) (net j.url)) =
        Except.ok (l.map (fun j => attachmentStatus (fileExistsAt (savePath targetDir j)) (net j.url))) := by
    intro l
    induction l with
    | nil => rfl
    | cons hd tl ih =>
      rw [List.mapM_cons, attachmentTask_total, ih]
      rfl
  rw [downloadAttachments, hm]

/-- Claim C9: an individual attachment download failure is caught and logged, and
does not abort sibling downloads: whenever some job's network fetch fails,
the batch call still returns normally, reports every job in its output
list, and assigns every other job its own terminal status — partial success
is the terminal state. -/
theorem attachment_failure_is_isolated (jobs : List DlJob) (targetDir : String)
    (fileExistsAt : String → Bool) (net : String → Except String Unit)
    (j : DlJob) (msg : String) (hj : j ∈ jobs)
    (hfail : net j.url = Except.error msg)
    (hnew : fileExistsAt (savePath targetDir j) = false) :
    ∃ out sts,
      downloadAttachments jobs targetDir fileExistsAt net = Except.ok (out, sts) ∧
      out.length = jobs.length ∧
      sts.length = jobs.length ∧
      DlStatus.failedLogged ∈ sts ∧
      (∀ j2 ∈ jobs, attachmentStatus (fileExistsAt (savePath targetDir j2)) (net j2.url) ∈ sts) := by
  refine ⟨_, _, downloadAttachments_ok jobs targetDir fileExistsAt net, by simp, by simp, ?_, ?_⟩
  · have : attachmentStatus (fileExistsAt (savePath targetDir j)) (net j.url) =
        DlStatus.failedLogged := by
      simp [attachmentStatus, hnew, hfail]
    rw [← this]
    exact List.mem_map_of_mem _ hj
  · intro j2 hj2
    exact List.mem_map_of_mem _ hj2

/-- Jobs for the C9 witness: the first job's download fails, the second
succeeds. -/
def c9jobs : List DlJob := [⟨"1", "a.txt", "u1"⟩, ⟨"2", "b.txt", "u2"⟩]

/-- Network environment for the C9 witness: url "u1" fails. -/
def c9net : String → Except String Unit :=
  fun u => if u == "u1" then .error "boom" else .ok ()

theorem attachment_failure_is_isolated_witness :
    ∃ out sts,
      downloadAttachments c9jobs "d" (fun _ => false) c9net = Except.ok (out, sts) ∧
      out.length = c9jobs.length ∧
      sts.length = c9jobs.length ∧
      DlStatus.failedLogged ∈ sts ∧
      (∀ j2 ∈ c9jobs, attachmentStatus false (c9net j2.url) ∈ sts) :=
  attachment_failure_is_isolated c9jobs "d" (fun _ => false) c9net
    ⟨"1", "a.txt", "u1"⟩ "boom" (by decide) rfl rfl

end QB
